import Mathlib

/-!
# Verification of the simple_nvr recording supervisor (`nvr.py`)

A shallow embedding of the pure/deterministic logic of `nvr.py`:
the stream-quota directive parser (`parse_rec_from_uri`,
`_build_camera_quotas`), the input-address chooser (`_choose_input_url`),
configuration reload (`reload_config`), the retention pass
(`clean_camera_folders`, per-directory part), the single-flight cleanup
flag (`_start_background_cleanup`), the process monitor tick
(`monitor_processes` body plus `_prune_finished_processes`), the shutdown
handler (`handle_termination` plus `cleanup_processes`), and the startup
boundary computation in `main`.

Conventions: Python floats are modelled as exact rationals (`ℚ`);
wall-clock instants as seconds (`ℚ` or `ℕ`); file sizes as byte counts
(`ℕ`); OS processes as abstract records carrying the liveness bits the
code observes.  Library calls (`urllib.parse.parse_qs`, `float`,
`str.split`, `sorted`) are embedded faithfully for ASCII input; Python's
`float` parser is modelled for finite decimal literals (the `inf`/`nan`
spellings and `_` digit grouping are outside every configuration of
interest).
-/

namespace Nvr

/-! ## Character-level string helpers (Python `str.split`, `str.strip`) -/

/-- Python `s.split(sep, 1)`: the part before the first occurrence of
`sep`, and the remainder after it when `sep` occurs. -/
def splitFirst (sep : Char) : List Char → List Char × Option (List Char)
  | [] => ([], none)
  | c :: rest =>
    if c = sep then ([], some rest)
    else
      let (a, b) := splitFirst sep rest
      (c :: a, b)

/-- Python `s.split(sep)` with a one-character separator:
`"" ↦ [""]`, `"a&&b" ↦ ["a", "", "b"]`. -/
def splitAll (sep : Char) : List Char → List (List Char)
  | [] => [[]]
  | c :: rest =>
    if c = sep then [] :: splitAll sep rest
    else
      match splitAll sep rest with
      | [] => [[c]]
      | f :: fs => (c :: f) :: fs

/-- Python `str.strip()` restricted to ASCII whitespace. -/
def stripWs (cs : List Char) : List Char :=
  ((cs.dropWhile Char.isWhitespace).reverse.dropWhile Char.isWhitespace).reverse

/-! ## `urllib.parse.parse_qs` (ASCII fragment parsing) -/

/-- Value of one hexadecimal digit, if any. -/
def hexVal (c : Char) : Option ℕ :=
  if '0' ≤ c ∧ c ≤ '9' then some (c.toNat - '0'.toNat)
  else if 'a' ≤ c ∧ c ≤ 'f' then some (c.toNat - 'a'.toNat + 10)
  else if 'A' ≤ c ∧ c ≤ 'F' then some (c.toNat - 'A'.toNat + 10)
  else none

/-- Percent-decoding as in `urllib.parse.unquote` for single-byte (ASCII)
escapes; an invalid escape is left verbatim, as in Python. -/
def pctDecode : List Char → List Char
  | [] => []
  | '%' :: a :: b :: rest =>
    match hexVal a, hexVal b with
    | some x, some y => Char.ofNat (16 * x + y) :: pctDecode rest
    | _, _ => '%' :: pctDecode (a :: b :: rest)
  | c :: rest => c :: pctDecode rest

/-- `unquote(s.replace('+', ' '))`, the decoding `parse_qsl` applies to
each name and value. -/
def unquotePlus (cs : List Char) : List Char :=
  pctDecode (cs.map fun c => if c = '+' then ' ' else c)

/-- `urllib.parse.parse_qsl(qs, keep_blank_values=True)`: split on `'&'`,
skip empty fields, split each field at the first `'='` (a field without
`'='` keeps a blank value), and decode names and values. -/
def parse_qsl (qs : String) : List (String × String) :=
  (splitAll '&' qs.toList).filterMap fun field =>
    if field.isEmpty then none
    else
      let (name, val?) := splitFirst '=' field
      let value := match val? with
        | some v => v
        | none => []
      some (String.mk (unquotePlus name), String.mk (unquotePlus value))

/-- `parse_qs(qs)[key]`: all values bound to `key`, in order. -/
def qsGetAll (ps : List (String × String)) (key : String) : List String :=
  ps.filterMap fun p => if p.1 = key then some p.2 else none

/-! ## Python `float()` on finite decimal literals, and `_parse_number` -/

/-- Numeric value of a digit string. -/
def natOfDigits (ds : List Char) : ℕ :=
  ds.foldl (fun acc c => 10 * acc + (c.toNat - '0'.toNat)) 0

/-- Python `float(s)` for finite decimal literals: optional surrounding
whitespace, optional sign, `digits [. digits]` or `. digits`, optional
exponent.  Returns the exact rational value, `none` where `float` would
raise `ValueError`. -/
def parseFloat? (s : String) : Option ℚ :=
  let cs0 := stripWs s.toList
  let (sgn, cs1) : ℚ × List Char :=
    match cs0 with
    | '+' :: r => (1, r)
    | '-' :: r => (-1, r)
    | _ => (1, cs0)
  let (ip, cs2) := cs1.span Char.isDigit
  let (fp, cs3) : List Char × List Char :=
    match cs2 with
    | '.' :: r => r.span Char.isDigit
    | _ => ([], cs2)
  if ip.isEmpty && fp.isEmpty then none
  else
    let mant : ℚ := sgn * ((natOfDigits ip : ℚ) + (natOfDigits fp : ℚ) / (10 : ℚ) ^ fp.length)
    match cs3 with
    | [] => some mant
    | e :: r =>
      if e = 'e' ∨ e = 'E' then
        let (esgn, r2) : ℤ × List Char :=
          match r with
          | '+' :: r3 => (1, r3)
          | '-' :: r3 => (-1, r3)
          | _ => (1, r)
        let (ed, r4) := r2.span Char.isDigit
        if ed.isEmpty || !r4.isEmpty then none
        else some (mant * (10 : ℚ) ^ (esgn * (natOfDigits ed : ℤ)))
      else none

/-- `_parse_number`: `None` stays `None`, otherwise try `float`. -/
def parseNumber? : Option String → Option ℚ
  | none => none
  | some v => parseFloat? v

/-! ## `parse_rec_from_uri` and `_build_camera_quotas` -/

/-- Python's `x or y` on the two `_pick_first` results: a `None` or empty
first operand falls through to the second. -/
def orFalsy (x y : Option String) : Option String :=
  match x with
  | some s => if s = "" then y else some s
  | none => y

/-- The fragment after the first `'#'` of a raw stream URI (`""` when no
`'#'` occurs). -/
def fragOf (raw : String) : String :=
  match splitFirst '#' raw.toList with
  | (_, some frag) => String.mk frag
  | (_, none) => ""

/-- Body of `parse_rec_from_uri` once the fragment is isolated: read
`rec_size` (falling back to `record_size`), then `rec`; first numeric
value wins, clamped at zero; non-numeric or absent directives give 0. -/
def parseRecFragment (frag : String) : ℚ :=
  if frag = "" then 0
  else
    let ps := parse_qsl frag
    let recSizeVal := orFalsy (qsGetAll ps "rec_size").head? (qsGetAll ps "record_size").head?
    let recVal := (qsGetAll ps "rec").head?
    let n : Option ℚ :=
      match parseNumber? recSizeVal with
      | some v => some v
      | none => parseNumber? recVal
    match n with
    | some v => max 0 v
    | none => 0

/-- `parse_rec_from_uri`: quota (GB) carried by one raw stream URI. -/
def parse_rec_from_uri (raw : String) : ℚ :=
  parseRecFragment (fragOf raw)

/-- Inner loop of `_build_camera_quotas` for one camera: the first URI in
the list yielding a positive quota wins; otherwise 0. -/
def buildQuota : List String → ℚ
  | [] => 0
  | u :: rest => if 0 < parse_rec_from_uri u then parse_rec_from_uri u else buildQuota rest

/-- `_build_camera_quotas`: per-camera quota map from the go2rtc streams
section (a camera given as a single string is treated as a one-element
list, as in the source). -/
def buildCameraQuotas (streams : List (String × List String)) : List (String × ℚ) :=
  streams.map fun p => (p.1, buildQuota p.2)

/-! ## `_choose_input_url` (input-address selection) -/

/-- A raw go2rtc `streams` entry: a single string, a list of strings, or
anything else (absent keys are `Option.none` at the call site).  The
source also skips non-string items inside a list before the first string
one; list entries are modelled as the string items. -/
inductive StreamsVal where
  | str (v : String)
  | list (vs : List String)
  | other

/-- `_parse_raw_uri_candidate`: drop the `'#'` fragment, strip
whitespace. -/
def parseRawUriCandidate (raw : String) : String :=
  (String.mk (splitFirst '#' raw.toList).1).trim

/-- The scheme test from `_choose_input_url`: the lower-cased candidate
starts with `rtsp://`, `rtsps://`, `http://` or `https://`. -/
def isAcceptedScheme (candidate : String) : Bool :=
  let lc := candidate.toList.map Char.toLower
  "rtsp://".toList.isPrefixOf lc || "rtsps://".toList.isPrefixOf lc
    || "http://".toList.isPrefixOf lc || "https://".toList.isPrefixOf lc

/-- `self.stream_server.rstrip('/') + '/' + stream_name`. -/
def fallbackUrl (streamServer streamName : String) : String :=
  String.mk ((streamServer.toList.reverse.dropWhile fun c => c = '/').reverse)
    ++ "/" ++ streamName

/-- `_choose_input_url`: candidate is the entry itself (string case) or
the first item of the list; it is used only when it bears an accepted
scheme, otherwise the synthesized fallback is returned.  Result is
`(input_url, used_raw_uri)`. -/
def chooseInputUrl (streamServer : String) (raw : Option StreamsVal) (streamName : String) :
    String × Option String :=
  let cand : Option (String × String) :=
    match raw with
    | some (.str v) => some (parseRawUriCandidate v, v)
    | some (.list vs) =>
      match vs with
      | [] => none
      | v :: _ => some (parseRawUriCandidate v, v)
    | _ => none
  match cand with
  | some (c, used) =>
    if isAcceptedScheme c then (c, some used)
    else (fallbackUrl streamServer streamName, none)
  | none => (fallbackUrl streamServer streamName, none)

/-- The spec's words for input-address selection, for comparison with
`chooseInputUrl`: "prefer the first address in the list that is a
well-formed network address (begins with one of a fixed set of accepted
schemes); otherwise fall back to a synthesized address built from the
global fallback prefix and the stream name". -/
def specChooseInput (streamServer : String) (addrs : List String) (streamName : String) : String :=
  match addrs.find? fun a => isAcceptedScheme (parseRawUriCandidate a) with
  | some a => parseRawUriCandidate a
  | none => fallbackUrl streamServer streamName

/-! ## `reload_config` -/

/-- The fields `reload_config` reads from the primary YAML config. -/
structure DvrConfig where
  base_dir : String
  stream_server : String
  target_size_gb : ℚ
  go2rtc_config_path : String
deriving DecidableEq

/-- The go2rtc config as consumed by the recorder: its `streams` map. -/
structure G2Config where
  streams : List (String × List String)
deriving DecidableEq

/-- The recorder's settings mutated by `reload_config`. -/
structure RecorderSettings where
  config : DvrConfig
  base_dir : String
  stream_server : String
  target_size_gb : ℚ
  go2rtc_config_path : String
  go2rtc_config : G2Config
  camera_quotas_gb : List (String × ℚ)
deriving DecidableEq

/-- `reload_config`: on a failed primary read the `except` branch keeps
everything; on a successful primary read the five settings are assigned
one by one *before* `load_go2rtc_config` runs, so a failing go2rtc read
leaves those five updated and only the stream map and quotas old. -/
def reload_config (st : RecorderSettings) (readMain : Except Unit DvrConfig)
    (readG2 : Except Unit G2Config) : RecorderSettings :=
  match readMain with
  | .error _ => st
  | .ok c =>
    let st1 : RecorderSettings :=
      { st with
        config := c
        base_dir := c.base_dir
        stream_server := c.stream_server
        target_size_gb := c.target_size_gb
        go2rtc_config_path := c.go2rtc_config_path }
    match readG2 with
    | .error _ => st1
    | .ok g => { st1 with go2rtc_config := g, camera_quotas_gb := buildCameraQuotas g.streams }

/-! ## Retention pass (`clean_camera_folders`, per-directory part) -/

/-- One file as the retention pass sees it: modification time and byte
size. -/
structure FileEnt where
  mtime : ℚ
  size : ℕ
deriving DecidableEq

/-- `st_size / (1024 ** 3)`: byte count in GB, exact. -/
def gbOfBytes (n : ℕ) : ℚ := (n : ℚ) / 1024 ^ 3

/-- Total size (GB) of a list of files. -/
def gbSum (files : List FileEnt) : ℚ := (files.map fun f => gbOfBytes f.size).sum

/-- Ordering key of the retention pass: ascending modification time. -/
def mtimeLe (a b : FileEnt) : Prop := a.mtime ≤ b.mtime

instance : DecidableRel mtimeLe :=
  fun a b => inferInstanceAs (Decidable (a.mtime ≤ b.mtime))

instance : IsTotal FileEnt mtimeLe := ⟨fun a b => le_total a.mtime b.mtime⟩

instance : IsTrans FileEnt mtimeLe := ⟨fun _ _ _ hab hbc => le_trans hab hbc⟩

/-- `sorted(files, key=mtime)`. -/
def sortByMtime (files : List FileEnt) : List FileEnt := List.insertionSort mtimeLe files

/-- The deletion loop: delete files in order while `space_to_free_gb`
is still positive, subtracting each deleted file's size.  Returns
`(deleted, remaining)`. -/
def deleteLoop : ℚ → List FileEnt → List FileEnt × List FileEnt
  | _, [] => ([], [])
  | space, f :: rest =>
    if space ≤ 0 then ([], f :: rest)
    else
      (f :: (deleteLoop (space - gbOfBytes f.size) rest).1,
        (deleteLoop (space - gbOfBytes f.size) rest).2)

/-- One camera directory's share of `clean_camera_folders` (no deletion
failures): if the total size exceeds the resolved quota, run the
deletion loop over the files sorted by ascending mtime.  Returns the
retained files. -/
def clean_camera_folder (quota : ℚ) (files : List FileEnt) : List FileEnt :=
  if 0 < gbSum files - quota then (deleteLoop (gbSum files - quota) (sortByMtime files)).2
  else files

/-- The files the same pass deletes. -/
def deletedByClean (quota : ℚ) (files : List FileEnt) : List FileEnt :=
  if 0 < gbSum files - quota then (deleteLoop (gbSum files - quota) (sortByMtime files)).1
  else []

/-! ## Single-flight background cleanup (`_start_background_cleanup`) -/

/-- The cleanup guard: the `_cleanup_in_progress` flag plus a count of
worker passes currently in flight (the flag is the code's state, the
count is the quantity the single-flight claim bounds). -/
structure CleanupFlag where
  inProgress : Bool
  running : ℕ
deriving DecidableEq

/-- `_start_background_cleanup`: under the lock, return immediately when
the flag is set; otherwise set it and spawn one pass.  The Boolean
result records whether a pass was started. -/
def startBackgroundCleanup (st : CleanupFlag) : CleanupFlag × Bool :=
  if st.inProgress then (st, false)
  else ({ inProgress := true, running := st.running + 1 }, true)

/-- The worker's `finally:` block: clear the flag when the pass ends,
whether it raised or not. -/
def finishCleanup (st : CleanupFlag) (_raised : Bool) : CleanupFlag :=
  { inProgress := false, running := st.running - 1 }

/-- Events driving the cleanup guard: a trigger from `record_streams`,
or a worker pass finishing (successfully or raising). -/
inductive CleanupEv where
  | trigger
  | finish (raised : Bool)

/-- One event's effect on the guard (a finish only occurs for a running
pass). -/
def cleanupStep (st : CleanupFlag) : CleanupEv → CleanupFlag
  | .trigger => (startBackgroundCleanup st).1
  | .finish r => if 0 < st.running then finishCleanup st r else st

/-- The guard state after a sequence of events, from the initial state
(flag clear, nothing running). -/
def cleanupRun (evs : List CleanupEv) : CleanupFlag :=
  evs.foldl cleanupStep ⟨false, 0⟩

/-! ## Shutdown (`cleanup_processes`, `handle_termination`) -/

/-- A live-map process at shutdown time: whether it is alive now, and
whether it would still be alive after SIGTERM plus the 5 s grace sleep
(i.e. it ignores SIGTERM). -/
structure ProcState where
  alive : Bool
  survivesTerm : Bool
deriving DecidableEq

/-- `cleanup_processes`: for each entry, send SIGTERM if the process is
alive, then pop the entry unconditionally.  Returns the streams signaled
and the resulting live map. -/
def cleanup_processes : List (String × ProcState) → List String × List (String × ProcState)
  | [] => ([], [])
  | e :: rest =>
    ((if e.2.alive then e.1 :: (cleanup_processes rest).1 else (cleanup_processes rest).1),
      (cleanup_processes rest).2)

/-- Observable outcome of `handle_termination`: streams sent SIGTERM,
streams sent SIGKILL, and the final live map. -/
structure ShutdownTrace where
  termSent : List String
  killSent : List String
  finalMap : List (String × ProcState)
deriving DecidableEq

/-- `handle_termination`: run `cleanup_processes`, sleep the 5 s grace,
then scan the live map again and SIGKILL entries still alive, popping
them.  The second scan sees the map `cleanup_processes` left behind. -/
def handle_termination (m : List (String × ProcState)) : ShutdownTrace :=
  let afterCleanup := cleanup_processes m
  let killSent := (afterCleanup.2.filter fun e => e.2.alive && e.2.survivesTerm).map Prod.fst
  { termSent := afterCleanup.1, killSent := killSent, finalMap := [] }

/-! ## Monitor tick (`monitor_processes` body) -/

/-- One live-map entry as the monitor sees it: recorded start time and
planned duration, plus whether `poll()` reports the process exited. -/
structure HandleInfo where
  start_time : ℚ
  duration : ℤ
  finished : Bool
deriving DecidableEq

/-- `_prune_finished_processes`: drop every entry whose process has
exited. -/
def prune_finished_processes (m : List (String × HandleInfo)) : List (String × HandleInfo) :=
  m.filter fun e => !e.2.finished

/-- One iteration of the `monitor_processes` loop: prune finished
entries, then for each remaining entry restart it for the remaining
planned time `int(remaining)` when it is found exited with more than
`restartThreshold` seconds left (`restartOk` tells whether the new
`ffmpeg` launch survives its liveness check), drop it when found exited
with at most the threshold left, keep it otherwise. -/
def monitorTick (restartThreshold now : ℚ) (restartOk : String → Bool)
    (m : List (String × HandleInfo)) : List (String × HandleInfo) :=
  (prune_finished_processes m).filterMap fun e =>
    if e.2.finished then
      if restartThreshold < e.2.start_time + (e.2.duration : ℚ) - now then
        if restartOk e.1 then
          some (e.1, ⟨now, ⌊e.2.start_time + (e.2.duration : ℚ) - now⌋, false⟩)
        else none
      else none
    else some e

/-- The restarts the same iteration performs: `(stream, duration)` for
each replacement process started. -/
def monitorTickRestarts (restartThreshold now : ℚ) (restartOk : String → Bool)
    (m : List (String × HandleInfo)) : List (String × ℤ) :=
  (prune_finished_processes m).filterMap fun e =>
    if e.2.finished then
      if restartThreshold < e.2.start_time + (e.2.duration : ℚ) - now then
        if restartOk e.1 then some (e.1, ⌊e.2.start_time + (e.2.duration : ℚ) - now⌋)
        else none
      else none
    else none

/-! ## Startup boundary computation (`main`) -/

/-- `next_minute = ((now.minute // 10 + 1) * 10) % 60`. -/
def nextMinute (m : ℕ) : ℕ := ((m / 10 + 1) * 10) % 60

/-- The current wall-clock instant, as seconds from midnight. -/
def nowSeconds (h m s : ℕ) : ℕ := 3600 * h + 60 * m + s

/-- `next_run` as seconds from the same midnight: minute `nextMinute m`
of the current hour, pushed into the next hour when
`next_minute <= now.minute`. -/
def nextRunSeconds (h m : ℕ) : ℕ :=
  if nextMinute m ≤ m then 3600 * (h + 1) + 60 * nextMinute m
  else 3600 * h + 60 * nextMinute m

/-- `remaining_time`, the duration handed to the initial
`record_streams` call. -/
def initialCycleDuration (h m s : ℕ) : ℕ := nextRunSeconds h m - nowSeconds h m s

end Nvr

namespace Nvr

/-- C4: Quota derivation from a stream's address list.  The derived quota
is the value of the first address whose directive yields a positive
number (over all addresses, in order); a non-numeric (`rec=true`) or
absent directive yields 0 for that address and the parser is total (no
exception path); `rec_size` takes priority over `rec` within one
address; `["a#rec=0", "b#rec=3"]` yields 3; a list with no positive
match yields 0. -/
theorem quota_from_address_list :
    (∀ uris : List String,
        buildQuota uris = ((uris.map parse_rec_from_uri).find? fun q => decide (0 < q)).getD 0)
    ∧ parse_rec_from_uri "rtsp://h/cam#rec=true" = 0
    ∧ parse_rec_from_uri "rtsp://h/cam" = 0
    ∧ parse_rec_from_uri "rtsp://h/cam#rec=2" = 2
    ∧ parse_rec_from_uri "rtsp://h/cam#rec_size=1.5&rec=2" = 3 / 2
    ∧ buildQuota ["a#rec=0", "b#rec=3"] = 3
    ∧ buildQuota ["a#rec=true", "b"] = 0 := by
  refine ⟨?_, by with_unfolding_all rfl, by with_unfolding_all rfl,
    by with_unfolding_all decide, by with_unfolding_all decide,
    by with_unfolding_all decide, by with_unfolding_all rfl⟩
  intro uris
  induction uris with
  | nil => rfl
  | cons u rest ih =>
    by_cases h : 0 < parse_rec_from_uri u
    · simp [buildQuota, List.find?, h]
    · simp [buildQuota, List.find?, h, ih]

/-- C10: `record_size` is accepted as a third directive key: when
`rec_size` is absent from the fragment, a numeric `record_size=N` fixes
the quota at `N`, taking priority over any `rec` directive. -/
theorem record_size_key_accepted (frag s : String) (n : ℚ)
    (h1 : qsGetAll (parse_qsl frag) "rec_size" = [])
    (h2 : (qsGetAll (parse_qsl frag) "record_size").head? = some s)
    (h3 : parseFloat? s = some n) (h4 : 0 ≤ n) :
    parseRecFragment frag = n := by
  have hfrag : frag ≠ "" := by
    intro h
    subst h
    rw [show parse_qsl "" = [] from rfl] at h2
    simp [qsGetAll] at h2
  simp only [parseRecFragment, if_neg hfrag, h1, h2, List.head?_nil, orFalsy, parseNumber?, h3]
  exact max_eq_right h4

/-- Witness for `record_size_key_accepted`: the fragment
`record_size=7&rec=2` carries no `rec_size` key, its `record_size` value
`"7"` parses to 7, and the derived quota is 7 (not `rec`'s 2). -/
theorem record_size_key_accepted_witness :
    qsGetAll (parse_qsl "record_size=7&rec=2") "rec_size" = []
    ∧ (qsGetAll (parse_qsl "record_size=7&rec=2") "record_size").head? = some "7"
    ∧ parseFloat? "7" = some 7 ∧ (0 : ℚ) ≤ 7
    ∧ parseRecFragment "record_size=7&rec=2" = 7 :=
  ⟨by with_unfolding_all rfl, by with_unfolding_all rfl, by with_unfolding_all decide,
   by norm_num,
   record_size_key_accepted "record_size=7&rec=2" "7" 7 (by with_unfolding_all rfl)
     (by with_unfolding_all rfl) (by with_unfolding_all decide) (by norm_num)⟩

/-! ## C5: input-address selection -/

/-- C5 counterexample: for the address list `["bad", "rtsp://x"]` the
spec's rule picks `rtsp://x` (the first well-formed address), but
`_choose_input_url` inspects only the first entry, finds it malformed,
and returns the synthesized fallback instead. -/
theorem input_selection_counterexample :
    specChooseInput "rtsp://srv" ["bad", "rtsp://x"] "cam" = "rtsp://x"
    ∧ (chooseInputUrl "rtsp://srv" (some (.list ["bad", "rtsp://x"])) "cam").1 = "rtsp://srv/cam"
    ∧ isAcceptedScheme "rtsp://x" = true
    ∧ ("rtsp://srv/cam" : String) ≠ "rtsp://x" :=
  ⟨by with_unfolding_all rfl, by with_unfolding_all rfl, by with_unfolding_all rfl, by decide⟩

/-- C5 amended: for a list-valued catalog entry, the recording input is
the *first* entry of the list — stripped of its directive fragment — when
that first entry bears an accepted scheme, and the synthesized fallback
(global fallback prefix, trailing slashes stripped, plus the stream
name) otherwise; later entries are never consulted, and an empty list
also falls back. -/
theorem input_selection_first_entry_only (server name : String) (vs : List String) :
    (chooseInputUrl server (some (.list vs)) name).1 =
      match vs with
      | [] => fallbackUrl server name
      | v :: _ =>
        if isAcceptedScheme (parseRawUriCandidate v) then parseRawUriCandidate v
        else fallbackUrl server name := by
  cases vs with
  | nil => rfl
  | cons v rest => cases h : isAcceptedScheme (parseRawUriCandidate v) <;> simp [chooseInputUrl, h]

/-! ## C6: reload atomicity -/

/-- C6 counterexample: a reload whose primary read succeeds but whose
go2rtc load raises leaves the storage root already switched to the new
value while the quota map still holds the old one — a partial update is
visible, so the post-reload settings are not the pre-reload settings. -/
theorem reload_counterexample :
    (reload_config
        { config := ⟨"old", "srv", 1, "g"⟩, base_dir := "old", stream_server := "srv",
          target_size_gb := 1, go2rtc_config_path := "g", go2rtc_config := ⟨[]⟩,
          camera_quotas_gb := [("cam", 2)] }
        (.ok ⟨"new", "srv2", 3, "g2"⟩) (.error ())).base_dir = "new"
    ∧ (reload_config
        { config := ⟨"old", "srv", 1, "g"⟩, base_dir := "old", stream_server := "srv",
          target_size_gb := 1, go2rtc_config_path := "g", go2rtc_config := ⟨[]⟩,
          camera_quotas_gb := [("cam", 2)] }
        (.ok ⟨"new", "srv2", 3, "g2"⟩) (.error ())).camera_quotas_gb = [("cam", 2)]
    ∧ reload_config
        { config := ⟨"old", "srv", 1, "g"⟩, base_dir := "old", stream_server := "srv",
          target_size_gb := 1, go2rtc_config_path := "g", go2rtc_config := ⟨[]⟩,
          camera_quotas_gb := [("cam", 2)] }
        (.ok ⟨"new", "srv2", 3, "g2"⟩) (.error ())
      ≠ { config := ⟨"old", "srv", 1, "g"⟩, base_dir := "old", stream_server := "srv",
          target_size_gb := 1, go2rtc_config_path := "g", go2rtc_config := ⟨[]⟩,
          camera_quotas_gb := [("cam", 2)] } :=
  ⟨by with_unfolding_all rfl, by with_unfolding_all rfl, by with_unfolding_all decide⟩

/-- C6 amended: a reload that fails while reading the primary config
keeps every setting; a reload whose primary read succeeds but whose
stream-config load raises keeps the old stream map and derived quotas
while the storage root, fallback prefix, global quota and config path
already hold their new values (partial update); a fully successful
reload installs everything new. -/
theorem reload_failure_semantics (st : RecorderSettings) (g2 : Except Unit G2Config)
    (c : DvrConfig) :
    reload_config st (.error ()) g2 = st
    ∧ (reload_config st (.ok c) (.error ())).go2rtc_config = st.go2rtc_config
    ∧ (reload_config st (.ok c) (.error ())).camera_quotas_gb = st.camera_quotas_gb
    ∧ (reload_config st (.ok c) (.error ())).base_dir = c.base_dir
    ∧ (reload_config st (.ok c) (.error ())).stream_server = c.stream_server
    ∧ (reload_config st (.ok c) (.error ())).target_size_gb = c.target_size_gb
    ∧ (reload_config st (.ok c) (.error ())).go2rtc_config_path = c.go2rtc_config_path
    ∧ ∀ g, reload_config st (.ok c) (.ok g) =
        { config := c, base_dir := c.base_dir, stream_server := c.stream_server,
          target_size_gb := c.target_size_gb, go2rtc_config_path := c.go2rtc_config_path,
          go2rtc_config := g, camera_quotas_gb := buildCameraQuotas g.streams } :=
  ⟨rfl, rfl, rfl, rfl, rfl, rfl, rfl, fun _ => rfl⟩

/-! ## C9: single-flight retention -/

/-- The inductive invariant of the cleanup guard: at most one pass in
flight, and none when the flag is clear. -/
theorem cleanupStep_invariant {st : CleanupFlag} (ev : CleanupEv)
    (h : st.running ≤ 1 ∧ (st.inProgress = false → st.running = 0)) :
    (cleanupStep st ev).running ≤ 1
    ∧ ((cleanupStep st ev).inProgress = false → (cleanupStep st ev).running = 0) := by
  obtain ⟨h1, h2⟩ := h
  cases ev with
  | trigger =>
    by_cases hp : st.inProgress = true
    · have he : cleanupStep st .trigger = st := by
        simp [cleanupStep, startBackgroundCleanup, hp]
      rw [he]
      exact ⟨h1, h2⟩
    · rw [Bool.not_eq_true] at hp
      simp [cleanupStep, startBackgroundCleanup, hp, h2 hp]
  | finish r =>
    by_cases hr : 0 < st.running
    · simp only [cleanupStep, if_pos hr, finishCleanup]
      omega
    · have he : cleanupStep st (.finish r) = st := by
        simp [cleanupStep, hr]
      rw [he]
      exact ⟨h1, h2⟩

/-- Invariant preservation along any event sequence. -/
theorem cleanupRun_invariant (evs : List CleanupEv) (st : CleanupFlag)
    (h : st.running ≤ 1 ∧ (st.inProgress = false → st.running = 0)) :
    (evs.foldl cleanupStep st).running ≤ 1
    ∧ ((evs.foldl cleanupStep st).inProgress = false → (evs.foldl cleanupStep st).running = 0) := by
  induction evs generalizing st with
  | nil => exact h
  | cons ev rest ih => exact ih (cleanupStep st ev) (cleanupStep_invariant ev h)

/-- C9: at most one retention pass is ever in flight; a trigger that
finds the flag set returns immediately with the state untouched and no
pass started; and finishing a pass clears the flag whether the pass
raised or not. -/
theorem cleanup_single_flight :
    (∀ evs : List CleanupEv, (cleanupRun evs).running ≤ 1)
    ∧ (∀ st : CleanupFlag, st.inProgress = true → startBackgroundCleanup st = (st, false))
    ∧ (∀ (st : CleanupFlag) (r : Bool), (finishCleanup st r).inProgress = false) := by
  refine ⟨fun evs => (cleanupRun_invariant evs ⟨false, 0⟩ (by simp)).1, fun st h => ?_,
    fun st r => rfl⟩
  simp [startBackgroundCleanup, h]

/-- Witness for `cleanup_single_flight` at concrete inputs: a double
trigger followed by a finish keeps at most one pass running; a trigger
on a set flag is a no-op; a raising finish clears the flag. -/
theorem cleanup_single_flight_witness :
    (cleanupRun [.trigger, .trigger, .finish true]).running ≤ 1
    ∧ startBackgroundCleanup ⟨true, 1⟩ = (⟨true, 1⟩, false)
    ∧ (finishCleanup ⟨true, 1⟩ true).inProgress = false :=
  ⟨cleanup_single_flight.1 [.trigger, .trigger, .finish true],
   cleanup_single_flight.2.1 ⟨true, 1⟩ rfl,
   cleanup_single_flight.2.2 ⟨true, 1⟩ true⟩

/-! ## C7: shutdown -/

/-- `cleanup_processes` pops every entry: the live map it leaves behind
is empty. -/
theorem cleanup_processes_empties (m : List (String × ProcState)) :
    (cleanup_processes m).2 = [] := by
  induction m with
  | nil => rfl
  | cons e rest ih => simp [cleanup_processes, ih]

/-- C7 evaluated: the SIGKILL phase of `handle_termination` scans the
live map *after* `cleanup_processes` has emptied it, so no process is
ever force-killed — in particular a stream whose process is alive and
ignores SIGTERM gets SIGTERM but never SIGKILL (the final map is empty,
as claimed). -/
theorem shutdown_never_force_kills :
    (∀ m : List (String × ProcState), (handle_termination m).killSent = [])
    ∧ handle_termination [("cam", ⟨true, true⟩)] =
        { termSent := ["cam"], killSent := [], finalMap := [] } := by
  constructor
  · intro m
    simp [handle_termination, cleanup_processes_empties]
  · rfl

/-! ## C1: monitor restart -/

/-- C1 evaluated: `_prune_finished_processes` runs at the top of every
monitor iteration and removes each exited entry before the restart scan,
so the scan never observes a finished process: no tick ever performs a
restart, and an entry whose process exited with 500 s of planned time
left (threshold 5 s) is simply dropped from the live map. -/
theorem monitor_tick_never_restarts :
    (∀ (th now : ℚ) (ok : String → Bool) (m : List (String × HandleInfo)),
        monitorTickRestarts th now ok m = [])
    ∧ monitorTick 5 100 (fun _ => true) [("cam", ⟨0, 600, true⟩)] = []
    ∧ (5 : ℚ) < (0 : ℚ) + ((600 : ℤ) : ℚ) - 100 := by
  refine ⟨?_, by with_unfolding_all rfl, by norm_num⟩
  intro th now ok m
  rw [monitorTickRestarts, List.filterMap_eq_nil_iff]
  intro e he
  have hf : (!e.2.finished) = true := (List.mem_filter.mp he).2
  rw [Bool.not_eq_true'] at hf
  simp [hf]

/-! ## C2 and C3: retention pass -/

/-- The deletion loop splits its input: deleted files followed by
retained files reassemble the sorted input. -/
theorem deleteLoop_append (space : ℚ) (l : List FileEnt) :
    (deleteLoop space l).1 ++ (deleteLoop space l).2 = l := by
  induction l generalizing space with
  | nil => rfl
  | cons f rest ih =>
    by_cases h : space ≤ 0
    · simp [deleteLoop, h]
    · simp [deleteLoop, h, ih]

/-- When the deletion loop stops, either nothing remains or the deleted
sizes have covered the space to free. -/
theorem deleteLoop_stop (space : ℚ) (l : List FileEnt) :
    (deleteLoop space l).2 = [] ∨ space - gbSum (deleteLoop space l).1 ≤ 0 := by
  induction l generalizing space with
  | nil => left; rfl
  | cons f rest ih =>
    by_cases h : space ≤ 0
    · right
      simp only [deleteLoop, if_pos h, gbSum, List.map_nil, List.sum_nil]
      simpa using h
    · rcases ih (space - gbOfBytes f.size) with h2 | h2
      · left
        simp [deleteLoop, h, h2]
      · right
        simp only [deleteLoop, if_neg h, gbSum, List.map_cons, List.sum_cons] at h2 ⊢
        linarith

/-- Total size is additive on concatenation. -/
theorem gbSum_append (a b : List FileEnt) : gbSum (a ++ b) = gbSum a + gbSum b := by
  simp [gbSum]

/-- Total size is invariant under permutation (in particular under
sorting). -/
theorem gbSum_perm {a b : List FileEnt} (h : a.Perm b) : gbSum a = gbSum b := by
  unfold gbSum
  exact (h.map fun f => gbOfBytes f.size).sum_eq

/-- C2: for a resolved quota `q > 0`, one failure-free retention pass
leaves the directory at total size at most `q` or empty, and every
retained file is one of the original files, kept whole (files are only
deleted, never truncated). -/
theorem retention_pass_quota_bound (quota : ℚ) (files : List FileEnt) (_hq : 0 < quota) :
    (gbSum (clean_camera_folder quota files) ≤ quota ∨ clean_camera_folder quota files = [])
    ∧ ∀ f ∈ clean_camera_folder quota files, f ∈ files := by
  have hperm : (sortByMtime files).Perm files := List.perm_insertionSort mtimeLe files
  unfold clean_camera_folder
  by_cases h : 0 < gbSum files - quota
  · rw [if_pos h]
    have happ := deleteLoop_append (gbSum files - quota) (sortByMtime files)
    constructor
    · rcases deleteLoop_stop (gbSum files - quota) (sortByMtime files) with h2 | h2
      · right
        exact h2
      · left
        have hsum : gbSum (sortByMtime files) = gbSum files := gbSum_perm hperm
        have hsplit := gbSum_append (deleteLoop (gbSum files - quota) (sortByMtime files)).1
          (deleteLoop (gbSum files - quota) (sortByMtime files)).2
        rw [happ] at hsplit
        linarith
    · intro f hf
      have hmem : f ∈ sortByMtime files := by
        rw [← happ]
        exact List.mem_append_right _ hf
      exact hperm.mem_iff.mp hmem
  · rw [if_neg h]
    exact ⟨Or.inl (by linarith [not_lt.mp h]), fun f hf => hf⟩

/-- Witness for `retention_pass_quota_bound`: two files of 1 and 2 bytes
against a 2-byte quota. -/
theorem retention_pass_quota_bound_witness :
    (0 : ℚ) < gbOfBytes 2
    ∧ ((gbSum (clean_camera_folder (gbOfBytes 2) [⟨1, 2⟩, ⟨0, 1⟩]) ≤ gbOfBytes 2
        ∨ clean_camera_folder (gbOfBytes 2) [⟨1, 2⟩, ⟨0, 1⟩] = [])
      ∧ ∀ f ∈ clean_camera_folder (gbOfBytes 2) [⟨1, 2⟩, ⟨0, 1⟩], f ∈ [⟨1, 2⟩, ⟨0, 1⟩]) :=
  ⟨by with_unfolding_all decide,
   retention_pass_quota_bound (gbOfBytes 2) [⟨1, 2⟩, ⟨0, 1⟩] (by with_unfolding_all decide)⟩

/-- C3: with pairwise distinct modification times, the deleted set of
one retention pass is exactly a prefix of the mtime-sorted file
sequence, and no retained file is older than any deleted file. -/
theorem retention_deletes_oldest_prefix (quota : ℚ) (files : List FileEnt)
    (_hdistinct : files.Pairwise fun a b => a.mtime ≠ b.mtime) :
    deletedByClean quota files =
      (sortByMtime files).take (deletedByClean quota files).length
    ∧ ∀ d ∈ deletedByClean quota files, ∀ r ∈ clean_camera_folder quota files,
        d.mtime ≤ r.mtime := by
  unfold deletedByClean clean_camera_folder
  by_cases h : 0 < gbSum files - quota
  · simp only [if_pos h]
    have happ := deleteLoop_append (gbSum files - quota) (sortByMtime files)
    have hsorted : List.Sorted mtimeLe (sortByMtime files) :=
      List.sorted_insertionSort mtimeLe files
    constructor
    · conv_lhs => rw [← List.take_left (deleteLoop (gbSum files - quota) (sortByMtime files)).1
        (deleteLoop (gbSum files - quota) (sortByMtime files)).2]
      rw [happ]
    · intro d hd r hr
      rw [← happ] at hsorted
      rw [List.Sorted, List.pairwise_append] at hsorted
      exact hsorted.2.2 d hd r hr
  · simp only [if_neg h]
    exact ⟨rfl, fun d hd => by simp at hd⟩

/-- Witness for `retention_deletes_oldest_prefix`: two files with
distinct mtimes against a 2-byte quota. -/
theorem retention_deletes_oldest_prefix_witness :
    List.Pairwise (fun a b : FileEnt => a.mtime ≠ b.mtime) [⟨1, 2⟩, ⟨0, 1⟩]
    ∧ (deletedByClean (gbOfBytes 2) [⟨1, 2⟩, ⟨0, 1⟩] =
        (sortByMtime [⟨1, 2⟩, ⟨0, 1⟩]).take (deletedByClean (gbOfBytes 2) [⟨1, 2⟩, ⟨0, 1⟩]).length
      ∧ ∀ d ∈ deletedByClean (gbOfBytes 2) [⟨1, 2⟩, ⟨0, 1⟩],
          ∀ r ∈ clean_camera_folder (gbOfBytes 2) [⟨1, 2⟩, ⟨0, 1⟩], d.mtime ≤ r.mtime) :=
  ⟨by with_unfolding_all decide,
   retention_deletes_oldest_prefix (gbOfBytes 2) [⟨1, 2⟩, ⟨0, 1⟩] (by with_unfolding_all decide)⟩

/-! ## C8: startup boundary computation -/

/-- C8: the computed `next_run` is the next multiple-of-10-minute
boundary strictly after the current instant (a multiple of 600 s, later
than now, within 600 s); it falls in the next hour exactly when the
computed target minute is not strictly greater than the current minute;
minute 57 yields minute 00 of the next hour, minute 23 yields minute 30
of the same hour; and the initial partial cycle's duration is the
remaining seconds until that boundary. -/
theorem startup_boundary (h m s : ℕ) (hm : m < 60) (hs : s < 60) :
    nextRunSeconds h m % 600 = 0
    ∧ nowSeconds h m s < nextRunSeconds h m
    ∧ nextRunSeconds h m ≤ nowSeconds h m s + 600
    ∧ (3600 * (h + 1) ≤ nextRunSeconds h m ↔ nextMinute m ≤ m)
    ∧ nextMinute 57 = 0 ∧ nextMinute 57 ≤ 57
    ∧ nextRunSeconds 9 57 = 36000
    ∧ nextMinute 23 = 30 ∧ ¬ nextMinute 23 ≤ 23
    ∧ nextRunSeconds 9 23 = 34200
    ∧ initialCycleDuration h m s = nextRunSeconds h m - nowSeconds h m s := by
  refine ⟨?_, ?_, ?_, ?_, by decide, by decide, by decide, by decide, by decide, by decide, rfl⟩ <;>
  · simp only [nextRunSeconds, nowSeconds, nextMinute]
    split <;> omega

/-- Witness for `startup_boundary` at 09:57:12: the next boundary is
10:00:00 and lies strictly ahead. -/
theorem startup_boundary_witness :
    nowSeconds 9 57 12 < nextRunSeconds 9 57 ∧ nextRunSeconds 9 57 % 600 = 0 :=
  ⟨(startup_boundary 9 57 12 (by norm_num) (by norm_num)).2.1,
   (startup_boundary 9 57 12 (by norm_num) (by norm_num)).1⟩

end Nvr
